import Mathlib

/-!
Verification development for the CPEService repository.

The embedding covers the `RPCClient` service (`src/services/rpcClient.ts`),
its certificate aggregation operations, and the GraphQL query resolution
layer (`src/graphql/resolvers.ts`).  Network-facing collaborators (the ethers
JSON-RPC provider, `ethers.Contract` construction, and HTTP fetch) are modelled
as explicit environments: a call into the environment is recorded as an event
so that statements such as "no network call is attempted" are expressible.
Pure library computations performed by the code (ethers v6 `formatUnits`) are
embedded directly.  Machine integers and JavaScript `bigint` values are
modelled as `Int`, and the non-negative `uint256` chain quantities as `Nat`.
-/

/-! ## Chain data model (ethers value shapes used by the repository) -/

/-- One log entry of a transaction receipt (ethers `Log`), with the fields the
resolvers read. -/
structure EthLog where
  address : String
  topics : List String
  data : String
  blockNumber : Int
  transactionHash : String
  index : Int
deriving DecidableEq

/-- Mined transaction receipt (ethers `TransactionReceipt`), with the fields the
repository reads.  `from` is a Lean keyword, so that field is named `from_`.
`status` is `none` when the receipt carries no execution status. -/
structure TransactionReceipt where
  hash : String
  blockNumber : Int
  blockHash : String
  from_ : String
  to_ : Option String
  cumulativeGasUsed : Nat
  gasUsed : Nat
  contractAddress : Option String
  status : Option Nat
  logs : List EthLog
deriving DecidableEq

/-- Block data (ethers `Block`), with the fields the resolvers read. -/
structure Block where
  number : Int
  hash : Option String
  timestamp : Int
  parentHash : String
  nonce : String
  difficulty : Nat
  gasLimit : Nat
  gasUsed : Nat
  miner : String
  extraData : String
  transactions : List String
  baseFeePerGas : Option Nat
deriving DecidableEq

/-- Pending or mined transaction data (ethers `TransactionResponse`), with the
fields the resolvers read. -/
structure TransactionData where
  hash : String
  from_ : String
  to_ : Option String
  value : Nat
  gasLimit : Nat
  gasPrice : Option Nat
  maxFeePerGas : Option Nat
  maxPriorityFeePerGas : Option Nat
  nonce : Int
  data : String
  chainId : Nat
  blockNumber : Option Int
  blockHash : Option String
deriving DecidableEq

/-- Fee data returned by the provider (ethers `FeeData`); only `gasPrice` is
read by the repository. -/
structure FeeData where
  gasPrice : Option Nat
deriving DecidableEq

/-- Network information (ethers `Network`). -/
structure EthNetwork where
  name : String
  chainId : Nat
deriving DecidableEq

/-- Argument of `getBlock`: the source accepts `string | number`. -/
inductive BlockId where
  | str (s : String)
  | num (n : Int)
deriving DecidableEq

/-! ## ethers v6 `formatUnits` (decimal rendering of big integers)

`RPCClient.getBalance` returns `ethers.formatEther(balance)` and the resolvers
use `ethers.formatUnits(x, 'gwei')`.  The functions below embed the character
algorithm of ethers v6 `FixedNumber.toString` (as invoked by `formatUnits`)
for a non-negative value: render the decimal digits, left-pad with `'0'` until
an integer digit exists, insert the decimal point, and strip trailing zeros of
the fraction while keeping at least one fractional digit.  No floating point
is involved anywhere. -/

/-- Decimal digit characters of `n`, most significant first (`['0']` for zero);
the rendering produced by JavaScript `BigInt.prototype.toString`. -/
def natToDecChars (n : Nat) : List Char :=
  if n = 0 then ['0'] else ((Nat.digits 10 n).map Nat.digitChar).reverse

/-- ethers: `while (str.length <= decimals) { str = "0" + str; }`. -/
def padForDecimals (decimals : Nat) (s : List Char) : List Char :=
  List.replicate (decimals + 1 - s.length) '0' ++ s

/-- ethers: strip trailing `'0'` characters of the fractional part, keeping at
least one character (`while (str[str.length-1] === "0" && str[str.length-2] !== ".")`). -/
def trimFracZeros (s : List Char) : List Char :=
  match s.reverse.dropWhile (fun ch => ch == '0') with
  | [] => ['0']
  | r => r.reverse

/-- Character algorithm of ethers v6 `formatUnits(value, decimals)` for a
non-negative value. -/
def formatUnitsChars (value : Nat) (decimals : Nat) : List Char :=
  let str := padForDecimals decimals (natToDecChars value)
  let whole := str.take (str.length - decimals)
  let frac := trimFracZeros (str.drop (str.length - decimals))
  whole ++ '.' :: frac

/-- ethers v6 `formatUnits(value, decimals)` for a non-negative value. -/
def formatUnits (value : Nat) (decimals : Nat) : String :=
  String.mk (formatUnitsChars value decimals)

/-- ethers v6 `formatEther(wei)`: base-unit (ether) rendering, 18 decimals. -/
def formatEther (wei : Nat) : String :=
  formatUnits wei 18

/-- ethers v6 `formatUnits(value, 'gwei')`: 9 decimals. -/
def formatGwei (value : Nat) : String :=
  formatUnits value 9

/-! ## Parse-back of a base-unit decimal string

The specification's invariant for `balance` is that the returned base-unit
decimal string can be parsed back to the original smallest-unit integer
without precision loss.  `weiOfEtherString` is that parse-back function,
written from the claim: split at the decimal point, read both digit groups,
and rescale the fraction to 18 decimals. -/

/-- Numeric value of a decimal digit character. -/
def charDigitVal (ch : Char) : Nat :=
  ch.toNat - 48

/-- Value of a big-endian decimal digit string. -/
def decValue (s : List Char) : Nat :=
  s.foldl (fun a ch => 10 * a + charDigitVal ch) 0

/-- Split a character list at the first `'.'` (the dot itself is dropped). -/
def splitAtDot : List Char → List Char × List Char
  | [] => ([], [])
  | ch :: rest =>
      if ch = '.' then ([], rest)
      else
        let p := splitAtDot rest
        (ch :: p.1, p.2)

/-- Parse an ether (base-unit) decimal string back into the smallest-unit
(wei) integer; `none` if the string is not a plain decimal with at most 18
fractional digits. -/
def weiOfEtherString (s : String) : Option Nat :=
  let p := splitAtDot s.data
  if p.1.all Char.isDigit = true ∧ p.2.all Char.isDigit = true ∧ p.2.length ≤ 18 then
    some (decValue p.1 * 10 ^ 18 + decValue p.2 * 10 ^ (18 - p.2.length))
  else none

/-! ## Provider, signers and the RPC client

`RPCClient` (src/services/rpcClient.ts, lines 200-522 of the current version)
holds a provider built from the RPC URL, an optional local wallet and an
optional external signer.  The provider is the environment's view of the
chain: each read method either yields a value or propagates a connectivity
error, and yields `null` (here `none`) when the queried entity does not exist
on chain — that is ethers' documented behaviour for `getBlock`,
`getTransaction` and `getTransactionReceipt`. -/

/-- Local wallet: `new ethers.Wallet(privateKey, this.provider)`. -/
structure Wallet where
  privateKey : String
  rpcUrl : String
deriving DecidableEq

/-- Delegated external signer (e.g. the Privy signer); only its identity is
relevant to the claims. -/
structure ExtSigner where
  addr : String
deriving DecidableEq

/-- The signing identity resolved for a write operation. -/
inductive SignerId where
  | externalSigner (signer : ExtSigner)
  | localWallet (wallet : Wallet)
deriving DecidableEq

/-- The chain as seen through an ethers `JsonRpcProvider`. -/
structure Provider where
  getBlockNumber : Except String Int
  getBlock : BlockId → Except String (Option Block)
  getTransaction : String → Except String (Option TransactionData)
  getBalance : String → Except String Nat
  getTransactionReceipt : String → Except String (Option TransactionReceipt)
  getFeeData : Except String FeeData
  getNetwork : Except String EthNetwork
  getTransactionCount : String → Except String Int

/-- Environment mapping an RPC URL to the provider it connects to
(`new ethers.JsonRpcProvider(rpcUrl)`). -/
structure ChainEnv where
  providerAt : String → Provider

/-- State of an `RPCClient` instance after the constructor ran. -/
structure RPCClient where
  rpcUrl : String
  wallet : Option Wallet
  externalSigner : Option ExtSigner
deriving DecidableEq

/-- The constructor (rpcClient.ts lines 210-222):
`if (externalSigner) { this.externalSigner = externalSigner }
 else if (privateKey) { this.wallet = new ethers.Wallet(privateKey, this.provider) }`.
`privateKey` is tested for JavaScript truthiness, so the empty string counts
as absent. -/
def RPCClient.construct (rpcUrl : String) (privateKey : Option String)
    (externalSigner : Option ExtSigner) : RPCClient :=
  { rpcUrl
    externalSigner
    wallet :=
      match externalSigner, privateKey with
      | some _, _ => none
      | none, some privateKey =>
          if privateKey = "" then none else some { privateKey, rpcUrl }
      | none, none => none }

/-- The provider held by the client. -/
def RPCClient.provider (c : RPCClient) (env : ChainEnv) : Provider :=
  env.providerAt c.rpcUrl

/-- `getSigner` (rpcClient.ts lines 286-294): prioritizes the external signer
over the direct wallet, and throws when neither is configured. -/
def RPCClient.getSigner (c : RPCClient) : Except String SignerId :=
  match c.externalSigner with
  | some signer => .ok (.externalSigner signer)
  | none =>
      match c.wallet with
      | some wallet => .ok (.localWallet wallet)
      | none => .error "No signer available. Provide either a privateKey or externalSigner."

/-- `getBlockNumber`. -/
def RPCClient.getBlockNumber (c : RPCClient) (env : ChainEnv) : Except String Int :=
  (c.provider env).getBlockNumber

/-- `getBlock`: forwards to the provider. -/
def RPCClient.getBlock (c : RPCClient) (env : ChainEnv) (blockHashOrNumber : BlockId) :
    Except String (Option Block) :=
  (c.provider env).getBlock blockHashOrNumber

/-- `getTransaction`: forwards to the provider. -/
def RPCClient.getTransaction (c : RPCClient) (env : ChainEnv) (txHash : String) :
    Except String (Option TransactionData) :=
  (c.provider env).getTransaction txHash

/-- `getBalance` (rpcClient.ts lines 248-251): fetches the wei balance and
returns `ethers.formatEther(balance)`. -/
def RPCClient.getBalance (c : RPCClient) (env : ChainEnv) (address : String) :
    Except String String :=
  match (c.provider env).getBalance address with
  | .error e => .error e
  | .ok balance => .ok (formatEther balance)

/-- `getTransactionReceipt`: forwards to the provider. -/
def RPCClient.getTransactionReceipt (c : RPCClient) (env : ChainEnv) (txHash : String) :
    Except String (Option TransactionReceipt) :=
  (c.provider env).getTransactionReceipt txHash

/-- `getGasPrice`: `feeData.gasPrice ? formatUnits(feeData.gasPrice, 'gwei') : '0'`. -/
def RPCClient.getGasPrice (c : RPCClient) (env : ChainEnv) : Except String String :=
  match (c.provider env).getFeeData with
  | .error e => .error e
  | .ok feeData =>
      .ok (match feeData.gasPrice with
        | some g => formatGwei g
        | none => "0")

/-- `getNetwork`: forwards to the provider. -/
def RPCClient.getNetwork (c : RPCClient) (env : ChainEnv) : Except String EthNetwork :=
  (c.provider env).getNetwork

/-- `getTransactionCount`: forwards to the provider. -/
def RPCClient.getTransactionCount (c : RPCClient) (env : ChainEnv) (address : String) :
    Except String Int :=
  (c.provider env).getTransactionCount address

/-! ## Minting -/

/-- A numeric mint parameter: the source accepts `number | bigint`. -/
inductive JsNumeric where
  | number (n : Int)
  | bigint (b : Int)
deriving DecidableEq

/-- `typeof x === 'bigint' ? x : BigInt(x)` — normalization to `bigint`. -/
def JsNumeric.toBigInt : JsNumeric → Int
  | .number n => n
  | .bigint b => b

/-- The argument tuple passed to the bound contract's `mintCertificate`
(after numeric normalization). -/
structure MintCallArgs where
  to_ : String
  tokenURI : String
  name : String
  certificateId : String
  courseTitle : String
  issuer : String
  dateIssued : Int
  completionDate : Int
  cpeHours : Int
deriving DecidableEq

/-- Decidable equality for `Except`, used by the derived instances below. -/
instance {ε : Type u} {α : Type v} [DecidableEq ε] [DecidableEq α] :
    DecidableEq (Except ε α) := fun x y =>
  match x, y with
  | .error a, .error b =>
      if h : a = b then .isTrue (congrArg Except.error h)
      else .isFalse fun hc => h (Except.error.inj hc)
  | .ok a, .ok b =>
      if h : a = b then .isTrue (congrArg Except.ok h)
      else .isFalse fun hc => h (Except.ok.inj hc)
  | .error _, .ok _ => .isFalse fun hc => Except.noConfusion hc
  | .ok _, .error _ => .isFalse fun hc => Except.noConfusion hc

/-- Result of awaiting the submitted transaction's `wait()`: a connectivity
error, `null`, or the mined receipt. -/
structure TxResponse where
  wait : Except String (Option TransactionReceipt)
deriving DecidableEq

/-- The contract object ethers builds for the mint ABI: `mintCertificate` is
`none` when the bound interface does not expose the method; calling it either
rejects (network failure, contract revert) or yields a transaction response. -/
structure MintContractBehavior where
  mintCertificate : Option (MintCallArgs → Except String TxResponse)

/-- Environment for writes: `new ethers.Contract(contractAddress, abi, signer)`. -/
structure MintEnv where
  contractAt : String → List String → SignerId → MintContractBehavior

/-- The minimal ABI the source builds for minting (rpcClient.ts lines 332-334). -/
def mintCertificateAbi : List String :=
  ["function mintCertificate(address to, string tokenURI, string name, string certificateId, string courseTitle, string issuer, uint256 dateIssued, uint256 completionDate, uint256 cpeHours) public"]

/-- Observable steps of a mint invocation.  `contractCreated` is local object
construction; `contractCall` and `waitedForReceipt` reach the network. -/
inductive MintEvent where
  | contractCreated (address : String) (abi : List String) (signer : SignerId)
  | contractCall (address : String) (signer : SignerId) (args : MintCallArgs)
  | waitedForReceipt
deriving DecidableEq

/-- Whether a mint event submits to or waits on the network. -/
def MintEvent.isSubmission : MintEvent → Bool
  | .contractCall .. => true
  | .waitedForReceipt => true
  | .contractCreated .. => false

/-- `mintCertificate` (rpcClient.ts lines 317-379): resolve the signer, build
the contract, verify the method exists on the bound interface, normalize the
numeric parameters to `bigint`, submit, await the receipt and return it
verbatim.  The second component is the list of performed steps. -/
def RPCClient.mintCertificate (c : RPCClient) (env : MintEnv)
    (contractAddress to_ tokenURI name certificateId courseTitle issuer : String)
    (dateIssued completionDate cpeHours : JsNumeric) :
    Except String (Option TransactionReceipt) × List MintEvent :=
  match c.getSigner with
  | .error e => (.error e, [])
  | .ok signer =>
      let contract := env.contractAt contractAddress mintCertificateAbi signer
      match contract.mintCertificate with
      | none =>
          (.error "mintCertificate function not found on contract. Check the contract address and ABI match the deployed contract.",
           [.contractCreated contractAddress mintCertificateAbi signer])
      | some call =>
          let dateIssuedBI := dateIssued.toBigInt
          let completionDateBI := completionDate.toBigInt
          let cpeHoursBI := cpeHours.toBigInt
          let args : MintCallArgs :=
            { to_, tokenURI, name, certificateId, courseTitle, issuer
              dateIssued := dateIssuedBI
              completionDate := completionDateBI
              cpeHours := cpeHoursBI }
          match call args with
          | .error e =>
              (.error e,
               [.contractCreated contractAddress mintCertificateAbi signer,
                .contractCall contractAddress signer args])
          | .ok txResponse =>
              (txResponse.wait,
               [.contractCreated contractAddress mintCertificateAbi signer,
                .contractCall contractAddress signer args,
                .waitedForReceipt])

/-! ## Certificate aggregation -/

/-- On-chain certificate record (`CertificateData` interface). -/
structure CertificateData where
  name : String
  certificateId : String
  courseTitle : String
  issuer : String
  dateIssued : Int
  completionDate : Int
  cpeHours : Int
deriving DecidableEq

/-- Raw tuple returned by `getAllNFTsByOwner`, as decoded by ethers:
four `string` components followed by three `uint256` components. -/
abbrev RawCertTuple :=
  String × String × String × String × Int × Int × Int

/-- The positional destructuring and mapping of one raw tuple
(rpcClient.ts lines 427-438):
`const [name, certificateId, courseTitle, issuer, dateIssued, completionDate, cpeHours] = cert`. -/
def rawToCertificate : RawCertTuple → CertificateData
  | (name, certificateId, courseTitle, issuer, dateIssued, completionDate, cpeHours) =>
      { name, certificateId, courseTitle, issuer, dateIssued, completionDate, cpeHours }

/-- Parsed off-chain JSON metadata document, kept abstract. -/
structure MetadataDoc where
  body : String
deriving DecidableEq

/-- `CertificateWithMetadata`: the on-chain record plus the optional
`tokenURI` and optional parsed metadata body. -/
structure CertificateWithMetadata extends CertificateData where
  tokenURI : Option String := none
  metadata : Option MetadataDoc := none
deriving DecidableEq

/-- The contract object ethers builds for the read-only certificate ABIs;
a method is `none` when the bound interface does not expose it. -/
structure CertContractBehavior where
  getAllNFTsByOwner : Option (String → Except String (List RawCertTuple))
  tokenOfOwnerByIndex : Option (String → Int → Except String Int)
  tokenURI : Option (Int → Except String String)

/-- Environment for the read-only certificate operations:
`new ethers.Contract(contractAddress, abi, this.provider)` plus
`fetch(uri)` followed by `response.json()` (`fetchJson` fails on either a
network error or malformed JSON). -/
structure CertEnv where
  contractAt : String → List String → CertContractBehavior
  fetchJson : String → Except String MetadataDoc

/-- The minimal ABI for `getAllNFTsByOwner` (rpcClient.ts lines 405-407). -/
def getAllNFTsByOwnerAbi : List String :=
  ["function getAllNFTsByOwner(address owner) public view returns (tuple(string name, string certificateId, string courseTitle, string issuer, uint256 dateIssued, uint256 completionDate, uint256 cpeHours)[])"]

/-- The ABI for token enumeration (rpcClient.ts lines 467-470). -/
def tokenFunctionsAbi : List String :=
  ["function tokenOfOwnerByIndex(address owner, uint256 index) public view returns (uint256)",
   "function tokenURI(uint256 tokenId) public view returns (string)"]

/-- Observable steps of the certificate read operations. -/
inductive CertEvent where
  | contractCreated (address : String) (abi : List String)
  | callGetAllNFTsByOwner (address : String) (owner : String)
  | callTokenOfOwnerByIndex (owner : String) (index : Int)
  | callTokenURI (tokenId : Int)
  | fetchFromURI (uri : String)
deriving DecidableEq

/-- `getAllCertificatesByOwner` (rpcClient.ts lines 400-441): one read call
returning the raw tuples, mapped positionally into `CertificateData`. -/
def RPCClient.getAllCertificatesByOwner (_c : RPCClient) (env : CertEnv)
    (contractAddress ownerAddress : String) :
    Except String (List CertificateData) × List CertEvent :=
  let contract := env.contractAt contractAddress getAllNFTsByOwnerAbi
  match contract.getAllNFTsByOwner with
  | none =>
      (.error "getAllNFTsByOwner function not found on contract. Check the contract address and ABI match the deployed contract.",
       [.contractCreated contractAddress getAllNFTsByOwnerAbi])
  | some call =>
      match call ownerAddress with
      | .error e =>
          (.error e,
           [.contractCreated contractAddress getAllNFTsByOwnerAbi,
            .callGetAllNFTsByOwner contractAddress ownerAddress])
      | .ok rawCertificates =>
          (.ok (rawCertificates.map rawToCertificate),
           [.contractCreated contractAddress getAllNFTsByOwnerAbi,
            .callGetAllNFTsByOwner contractAddress ownerAddress])

/-- The per-certificate body of the metadata aggregation
(rpcClient.ts lines 497-518): the outer `try` resolves the token id and its
URI and degrades to the bare certificate on failure; the inner `try` fetches
and parses the metadata document and degrades to certificate plus URI. -/
def fetchCertMetadata (fetchJson : String → Except String MetadataDoc)
    (tokenOfOwnerByIndex : String → Int → Except String Int)
    (tokenURI : Int → Except String String)
    (ownerAddress : String) (cert : CertificateData) (index : Nat) :
    CertificateWithMetadata × List CertEvent :=
  match tokenOfOwnerByIndex ownerAddress (Int.ofNat index) with
  | .error _ =>
      ({ toCertificateData := cert },
       [.callTokenOfOwnerByIndex ownerAddress (Int.ofNat index)])
  | .ok tokenId =>
      match tokenURI tokenId with
      | .error _ =>
          ({ toCertificateData := cert },
           [.callTokenOfOwnerByIndex ownerAddress (Int.ofNat index),
            .callTokenURI tokenId])
      | .ok uri =>
          match fetchJson uri with
          | .error _ =>
              ({ toCertificateData := cert, tokenURI := some uri },
               [.callTokenOfOwnerByIndex ownerAddress (Int.ofNat index),
                .callTokenURI tokenId, .fetchFromURI uri])
          | .ok metadata =>
              ({ toCertificateData := cert, tokenURI := some uri, metadata := some metadata },
               [.callTokenOfOwnerByIndex ownerAddress (Int.ofNat index),
                .callTokenURI tokenId, .fetchFromURI uri])

/-- `certificates.map(async (cert, index) => ...)`: the per-certificate bodies
applied at consecutive indices (issued concurrently in the source; the output
order is by index). -/
def fetchAllCertMetadata (fetchJson : String → Except String MetadataDoc)
    (tokenOfOwnerByIndex : String → Int → Except String Int)
    (tokenURI : Int → Except String String)
    (ownerAddress : String) :
    Nat → List CertificateData → List (CertificateWithMetadata × List CertEvent)
  | _, [] => []
  | index, cert :: rest =>
      fetchCertMetadata fetchJson tokenOfOwnerByIndex tokenURI ownerAddress cert index ::
        fetchAllCertMetadata fetchJson tokenOfOwnerByIndex tokenURI ownerAddress (index + 1) rest

/-- `getAllCertificatesWithMetadata` (rpcClient.ts lines 453-522): fetch the
base records; return them unchanged when `fetchMetadata` is false; otherwise
bind the token-enumeration ABI, verify both methods exist, and resolve
metadata per certificate with independent failure tolerance. -/
def RPCClient.getAllCertificatesWithMetadata (c : RPCClient) (env : CertEnv)
    (contractAddress ownerAddress : String) (fetchMetadata : Bool := true) :
    Except String (List CertificateWithMetadata) × List CertEvent :=
  match c.getAllCertificatesByOwner env contractAddress ownerAddress with
  | (.error e, events) => (.error e, events)
  | (.ok certificates, events) =>
      if !fetchMetadata then
        (.ok (certificates.map fun cert => { toCertificateData := cert }), events)
      else
        let contract := env.contractAt contractAddress tokenFunctionsAbi
        let events := events ++ [.contractCreated contractAddress tokenFunctionsAbi]
        match contract.tokenOfOwnerByIndex with
        | none =>
            (.error "tokenOfOwnerByIndex function not found on contract. Check the contract address and ABI match the deployed contract.",
             events)
        | some tof =>
            match contract.tokenURI with
            | none =>
                (.error "tokenURI function not found on contract. Check the contract address and ABI match the deployed contract.",
                 events)
            | some turi =>
                let results :=
                  fetchAllCertMetadata env.fetchJson tof turi ownerAddress 0 certificates
                (.ok (results.map Prod.fst), events ++ (results.map Prod.snd).flatten)

/-! ## Query resolution layer (src/graphql/resolvers.ts) -/

/-- Resolver context: holds the shared `RPCClient`. -/
structure Context where
  rpcClient : RPCClient
deriving DecidableEq

/-- The reshaped `Block` response. -/
structure BlockGQL where
  number : Int
  hash : Option String
  timestamp : Int
  parentHash : String
  nonce : String
  difficulty : String
  gasLimit : String
  gasUsed : String
  miner : String
  extraData : String
  transactions : List String
  baseFeePerGas : Option String
deriving DecidableEq

/-- The reshaped `Transaction` response. -/
structure TransactionGQL where
  hash : String
  from_ : String
  to_ : Option String
  value : String
  gasLimit : String
  gasPrice : Option String
  maxFeePerGas : Option String
  maxPriorityFeePerGas : Option String
  nonce : Int
  data : String
  chainId : String
  blockNumber : Option Int
  blockHash : Option String
deriving DecidableEq

/-- The reshaped `Log` response. -/
structure LogGQL where
  address : String
  topics : List String
  data : String
  blockNumber : Int
  transactionHash : String
  logIndex : Int
deriving DecidableEq

/-- The reshaped `TransactionReceipt` response. -/
structure TransactionReceiptGQL where
  transactionHash : String
  blockNumber : Int
  blockHash : String
  from_ : String
  to_ : Option String
  cumulativeGasUsed : String
  gasUsed : String
  contractAddress : Option String
  status : Option Nat
  logs : List LogGQL
deriving DecidableEq

/-- The reshaped `Network` response. -/
structure NetworkGQL where
  name : String
  chainId : String
deriving DecidableEq

/-- `Query.blockNumber`. -/
def Resolvers.blockNumber (ctx : Context) (env : ChainEnv) : Except String Int :=
  ctx.rpcClient.getBlockNumber env

/-- `Query.block` (resolvers.ts lines 14-32): `if (!block) return null`,
otherwise reshape, rendering big integers as decimal strings and applying
`block.nonce || '0'`. -/
def Resolvers.block (ctx : Context) (env : ChainEnv) (blockHashOrNumber : String) :
    Except String (Option BlockGQL) :=
  match ctx.rpcClient.getBlock env (.str blockHashOrNumber) with
  | .error e => .error e
  | .ok none => .ok none
  | .ok (some b) =>
      .ok (some
        { number := b.number
          hash := b.hash
          timestamp := b.timestamp
          parentHash := b.parentHash
          nonce := if b.nonce = "" then "0" else b.nonce
          difficulty := toString b.difficulty
          gasLimit := toString b.gasLimit
          gasUsed := toString b.gasUsed
          miner := b.miner
          extraData := b.extraData
          transactions := b.transactions
          baseFeePerGas := b.baseFeePerGas.map toString })

/-- `Query.transaction` (resolvers.ts lines 34-53): `if (!tx) return null`,
otherwise reshape, with `value` in ether and the fee fields in gwei. -/
def Resolvers.transaction (ctx : Context) (env : ChainEnv) (txHash : String) :
    Except String (Option TransactionGQL) :=
  match ctx.rpcClient.getTransaction env txHash with
  | .error e => .error e
  | .ok none => .ok none
  | .ok (some tx) =>
      .ok (some
        { hash := tx.hash
          from_ := tx.from_
          to_ := tx.to_
          value := formatEther tx.value
          gasLimit := toString tx.gasLimit
          gasPrice := tx.gasPrice.map formatGwei
          maxFeePerGas := tx.maxFeePerGas.map formatGwei
          maxPriorityFeePerGas := tx.maxPriorityFeePerGas.map formatGwei
          nonce := tx.nonce
          data := tx.data
          chainId := toString tx.chainId
          blockNumber := tx.blockNumber
          blockHash := tx.blockHash })

/-- `Query.balance`: returned directly from the client. -/
def Resolvers.balance (ctx : Context) (env : ChainEnv) (address : String) :
    Except String String :=
  ctx.rpcClient.getBalance env address

/-- `Query.transactionReceipt` (resolvers.ts lines 59-82): `if (!receipt)
return null`, otherwise reshape, mapping logs field-by-field in order. -/
def Resolvers.transactionReceipt (ctx : Context) (env : ChainEnv) (txHash : String) :
    Except String (Option TransactionReceiptGQL) :=
  match ctx.rpcClient.getTransactionReceipt env txHash with
  | .error e => .error e
  | .ok none => .ok none
  | .ok (some receipt) =>
      .ok (some
        { transactionHash := receipt.hash
          blockNumber := receipt.blockNumber
          blockHash := receipt.blockHash
          from_ := receipt.from_
          to_ := receipt.to_
          cumulativeGasUsed := toString receipt.cumulativeGasUsed
          gasUsed := toString receipt.gasUsed
          contractAddress := receipt.contractAddress
          status := receipt.status
          logs := receipt.logs.map fun log =>
            { address := log.address
              topics := log.topics
              data := log.data
              blockNumber := log.blockNumber
              transactionHash := log.transactionHash
              logIndex := log.index } })

/-- `Query.gasPrice`. -/
def Resolvers.gasPrice (ctx : Context) (env : ChainEnv) : Except String String :=
  ctx.rpcClient.getGasPrice env

/-- `Query.network`. -/
def Resolvers.network (ctx : Context) (env : ChainEnv) : Except String NetworkGQL :=
  match ctx.rpcClient.getNetwork env with
  | .error e => .error e
  | .ok network => .ok { name := network.name, chainId := toString network.chainId }

/-- `Query.transactionCount`. -/
def Resolvers.transactionCount (ctx : Context) (env : ChainEnv) (address : String) :
    Except String Int :=
  ctx.rpcClient.getTransactionCount env address

/-! ## Concrete fixtures used by the witnesses -/

/-- A provider on which no queried entity exists and one account holds
1.5 ether. -/
def nullProvider : Provider :=
  { getBlockNumber := .ok 0
    getBlock := fun _ => .ok none
    getTransaction := fun _ => .ok none
    getBalance := fun _ => .ok 1500000000000000000
    getTransactionReceipt := fun _ => .ok none
    getFeeData := .ok { gasPrice := none }
    getNetwork := .ok { name := "testnet", chainId := 1 }
    getTransactionCount := fun _ => .ok 0 }

/-- Chain environment built from `nullProvider`. -/
def testChainEnv : ChainEnv :=
  { providerAt := fun _ => nullProvider }

/-- A client constructed with neither a private key nor an external signer. -/
def testClient : RPCClient :=
  RPCClient.construct "http://localhost:8545" none none

/-- A client constructed with a private key only. -/
def keyClient : RPCClient :=
  RPCClient.construct "http://localhost:8545" (some "0xkey") none

/-- The signing identity `keyClient` resolves to. -/
def keySigner : SignerId :=
  .localWallet { privateKey := "0xkey", rpcUrl := "http://localhost:8545" }

/-- A mint environment whose bound contract lacks `mintCertificate`. -/
def noMintEnv : MintEnv :=
  { contractAt := fun _ _ _ => { mintCertificate := none } }

/-- A receipt mined with failure status (`status` 0). -/
def failedReceipt : TransactionReceipt :=
  { hash := "0xtx", blockNumber := 100, blockHash := "0xblock", from_ := "0xsender",
    to_ := some "0xcontract", cumulativeGasUsed := 21000, gasUsed := 21000,
    contractAddress := none, status := some 0, logs := [] }

/-- A mint environment whose contract call succeeds and mines `failedReceipt`. -/
def mintOkEnv : MintEnv :=
  { contractAt := fun _ _ _ =>
      { mintCertificate := some (fun _ => .ok { wait := .ok (some failedReceipt) }) } }

/-- First raw on-chain certificate tuple. -/
def rawCert0 : RawCertTuple :=
  ("Alice Smith", "CERT-001", "Course A", "Issuer Inc", 1000, 2000, 10)

/-- Second raw on-chain certificate tuple. -/
def rawCert1 : RawCertTuple :=
  ("Bob Jones", "CERT-002", "Course B", "Issuer Inc", 1100, 2100, 20)

/-- Token index resolution that fails at index 0 and succeeds elsewhere. -/
def testTof : String → Int → Except String Int :=
  fun _ index => if index = 0 then .error "tokenOfOwnerByIndex reverted" else .ok (100 + index)

/-- Token URI resolution defined for token 101 only. -/
def testTuri : Int → Except String String :=
  fun tokenId => if tokenId = 101 then .ok "https://meta.example/1.json" else .error "tokenURI reverted"

/-- Metadata fetch defined for the one known URI only. -/
def testFetchJson : String → Except String MetadataDoc :=
  fun uri => if uri = "https://meta.example/1.json" then .ok { body := "metadata-doc-1" }
    else .error "network error"

/-- Read-only contract exposing all three certificate methods, owning the two
raw tuples above. -/
def certMetaContract : CertContractBehavior :=
  { getAllNFTsByOwner := some (fun _ => .ok [rawCert0, rawCert1])
    tokenOfOwnerByIndex := some testTof
    tokenURI := some testTuri }

/-- Certificate environment for the metadata aggregation witnesses. -/
def certMetaEnv : CertEnv :=
  { contractAt := fun _ _ => certMetaContract
    fetchJson := testFetchJson }

/-- Certificate environment whose contract lacks the token-enumeration
methods. -/
def certNoMetaEnv : CertEnv :=
  { contractAt := fun _ _ =>
      { getAllNFTsByOwner := some (fun _ => .ok [rawCert0])
        tokenOfOwnerByIndex := none
        tokenURI := none }
    fetchJson := fun _ => .error "unreachable endpoint" }

/-- Certificate environment for an owner with zero owned tokens. -/
def certEmptyEnv : CertEnv :=
  { contractAt := fun _ _ =>
      { getAllNFTsByOwner := some (fun _ => .ok [])
        tokenOfOwnerByIndex := none
        tokenURI := none }
    fetchJson := fun _ => .error "unreachable endpoint" }

/-! ## Helper lemmas: decimal rendering and parse-back -/

/-- Folding the decimal accumulator from `acc` splits off `acc` scaled by the
length of the remaining digits. -/
theorem decValue_foldl (cs : List Char) (acc : Nat) :
    List.foldl (fun a ch => 10 * a + charDigitVal ch) acc cs
      = acc * 10 ^ cs.length + decValue cs := by
  induction cs generalizing acc with
  | nil => simp [decValue]
  | cons ch cs ih =>
      have hcons : decValue (ch :: cs) = charDigitVal ch * 10 ^ cs.length + decValue cs := by
        simp only [decValue, List.foldl_cons, Nat.mul_zero, Nat.zero_add]
        exact ih (charDigitVal ch)
      rw [List.foldl_cons, ih, hcons, List.length_cons]
      ring

/-- Decimal value of a concatenation. -/
theorem decValue_append (a b : List Char) :
    decValue (a ++ b) = decValue a * 10 ^ b.length + decValue b := by
  simp only [decValue, List.foldl_append]
  exact decValue_foldl b _

/-- A run of `'0'` characters has decimal value zero. -/
theorem decValue_replicate_zero (k : Nat) : decValue (List.replicate k '0') = 0 := by
  induction k with
  | zero => rfl
  | succ k ih =>
      simp only [List.replicate_succ, decValue, List.foldl_cons] at ih ⊢
      simpa [charDigitVal] using ih

/-- Left-padding with zeros does not change the decimal value. -/
theorem decValue_padForDecimals (decimals : Nat) (s : List Char) :
    decValue (padForDecimals decimals s) = decValue s := by
  simp only [padForDecimals]
  rw [decValue_append, decValue_replicate_zero]
  simp

/-- `Nat.digitChar` inverts to the digit for digits below ten. -/
theorem charDigitVal_digitChar (d : Nat) (hd : d < 10) :
    charDigitVal (Nat.digitChar d) = d := by
  interval_cases d <;> decide

/-- `Nat.digitChar` yields a decimal digit character for digits below ten. -/
theorem isDigit_digitChar (d : Nat) (hd : d < 10) :
    (Nat.digitChar d).isDigit = true := by
  interval_cases d <;> decide

/-- Reading back the reversed digit rendering recovers `Nat.ofDigits`. -/
theorem decValue_digits_reverse (L : List Nat) (hL : ∀ d ∈ L, d < 10) :
    decValue ((L.map Nat.digitChar).reverse) = Nat.ofDigits 10 L := by
  induction L with
  | nil => simp [decValue, Nat.ofDigits_nil]
  | cons d ds ih =>
      simp only [List.map_cons, List.reverse_cons]
      rw [decValue_append]
      have hd : d < 10 := hL d (List.mem_cons_self d ds)
      have hds : ∀ x ∈ ds, x < 10 := fun x hx => hL x (List.mem_cons_of_mem d hx)
      rw [ih hds, Nat.ofDigits_cons]
      have hone : decValue [Nat.digitChar d] = d := by
        simp only [decValue, List.foldl_cons, List.foldl_nil]
        simpa using charDigitVal_digitChar d hd
      rw [hone]
      simp
      ring

/-- The decimal rendering of `n` reads back to `n`. -/
theorem decValue_natToDecChars (n : Nat) : decValue (natToDecChars n) = n := by
  by_cases h : n = 0
  · subst h; decide
  · simp only [natToDecChars, if_neg h]
    rw [decValue_digits_reverse _ (fun d hd => Nat.digits_lt_base (by norm_num) hd)]
    exact Nat.ofDigits_digits 10 n

/-- Every character of the decimal rendering is a digit. -/
theorem natToDecChars_digits (n : Nat) : ∀ ch ∈ natToDecChars n, ch.isDigit = true := by
  intro ch hc
  by_cases h : n = 0
  · subst h
    have hz : natToDecChars 0 = ['0'] := rfl
    rw [hz, List.mem_singleton] at hc
    subst hc; decide
  · simp only [natToDecChars, if_neg h, List.mem_reverse, List.mem_map] at hc
    obtain ⟨d, hd, rfl⟩ := hc
    exact isDigit_digitChar d (Nat.digits_lt_base (by norm_num) hd)

/-- Padding preserves digit-ness. -/
theorem padForDecimals_digits (decimals : Nat) (s : List Char)
    (hs : ∀ ch ∈ s, ch.isDigit = true) :
    ∀ ch ∈ padForDecimals decimals s, ch.isDigit = true := by
  intro ch hc
  simp only [padForDecimals, List.mem_append, List.mem_replicate] at hc
  rcases hc with ⟨_, rfl⟩ | hc
  · decide
  · exact hs ch hc

/-- The padded rendering has length at least `decimals + 1`. -/
theorem padForDecimals_length (decimals : Nat) (s : List Char) :
    decimals + 1 ≤ (padForDecimals decimals s).length := by
  simp only [padForDecimals, List.length_append, List.length_replicate]
  omega

/-- Trimming trailing zeros of a fraction: the value rescales exactly, at
least one character remains, the length does not grow (except from empty to
`"0"`), and every remaining character comes from the input or is `'0'`. -/
theorem trimFracZeros_spec (s : List Char) :
    decValue (trimFracZeros s) * 10 ^ (s.length - (trimFracZeros s).length) = decValue s ∧
    1 ≤ (trimFracZeros s).length ∧
    (trimFracZeros s).length ≤ max s.length 1 ∧
    ∀ ch ∈ trimFracZeros s, ch ∈ s ∨ ch = '0' := by
  cases hr : s.reverse.dropWhile (fun ch => ch == '0') with
  | nil =>
      have htrim : trimFracZeros s = ['0'] := by
        simp [trimFracZeros, hr]
      have hrev : s.reverse = s.reverse.takeWhile (fun ch => ch == '0') := by
        conv_lhs => rw [← List.takeWhile_append_dropWhile (fun ch => ch == '0') s.reverse]
        rw [hr, List.append_nil]
      have hmem : ∀ ch ∈ s, ch = '0' := by
        intro ch hch
        have h1 : ch ∈ s.reverse := List.mem_reverse.mpr hch
        rw [hrev] at h1
        simpa using List.mem_takeWhile_imp h1
      have hs : s = List.replicate s.length '0' := List.eq_replicate_of_mem hmem
      refine ⟨?_, ?_, ?_, ?_⟩
      · rw [htrim]
        conv_rhs => rw [hs]
        rw [decValue_replicate_zero]
        have h0 : decValue ['0'] = 0 := by decide
        rw [h0, Nat.zero_mul]
      · rw [htrim]; decide
      · rw [htrim]; simp
      · intro ch hch
        rw [htrim, List.mem_singleton] at hch
        exact Or.inr hch
  | cons a as =>
      have htrim : trimFracZeros s = (a :: as).reverse := by
        simp [trimFracZeros, hr]
      set T := s.reverse.takeWhile (fun ch => ch == '0') with hT
      have hsplit : T ++ (a :: as) = s.reverse := by
        rw [hT, ← hr]
        exact List.takeWhile_append_dropWhile _ _
      have hmemt : ∀ ch ∈ T, ch = '0' := by
        intro ch hch
        rw [hT] at hch
        have h1 := List.mem_takeWhile_imp hch
        exact eq_of_beq h1
      have htrep : T.reverse = List.replicate T.length '0' := by
        conv_lhs => rw [List.eq_replicate_of_mem hmemt]
        rw [List.reverse_replicate]
      have hts : s = (a :: as).reverse ++ List.replicate T.length '0' := by
        have h1 := congrArg List.reverse hsplit
        rw [List.reverse_append, List.reverse_reverse] at h1
        rw [← h1, htrep]
      have hlen := congrArg List.length hts
      simp only [List.length_append, List.length_reverse, List.length_cons,
        List.length_replicate] at hlen
      refine ⟨?_, ?_, ?_, ?_⟩
      · rw [htrim]
        conv_rhs => rw [hts]
        rw [decValue_append, decValue_replicate_zero, List.length_replicate, Nat.add_zero]
        congr 2
        simp only [List.length_reverse, List.length_cons]
        omega
      · rw [htrim]
        simp
      · rw [htrim]
        simp only [List.length_reverse, List.length_cons]
        have h1 : as.length + 1 ≤ s.length := by omega
        exact le_trans h1 (le_max_left _ _)
      · intro ch hch
        rw [htrim] at hch
        left
        rw [hts]
        exact List.mem_append_left _ hch

/-- Splitting at the dot recovers the two halves when the left half is
dot-free. -/
theorem splitAtDot_append (a b : List Char) (ha : ('.' : Char) ∉ a) :
    splitAtDot (a ++ '.' :: b) = (a, b) := by
  induction a with
  | nil => simp [splitAtDot]
  | cons ch cs ih =>
      have hch : ¬(ch = '.') := fun h => ha (h ▸ List.mem_cons_self ch cs)
      rw [List.cons_append]
      show (if ch = '.' then ([], cs ++ '.' :: b)
        else
          let p := splitAtDot (cs ++ '.' :: b)
          (ch :: p.1, p.2)) = (ch :: cs, b)
      rw [if_neg hch, ih (fun h => ha (List.mem_cons_of_mem ch h))]

/-- The rendered balance string parses back to the exact wei value:
the wei-to-ether conversion is a lossless exact decimal rendering. -/
theorem weiOfEtherString_formatEther (wei : Nat) :
    weiOfEtherString (formatEther wei) = some wei := by
  set str := padForDecimals 18 (natToDecChars wei) with hstr
  set whole := str.take (str.length - 18) with hwhole
  set fracRaw := str.drop (str.length - 18) with hfracRaw
  set frac := trimFracZeros fracRaw with hfrac
  have hchars : (formatEther wei).data = whole ++ '.' :: frac := rfl
  have hstrdig : ∀ ch ∈ str, ch.isDigit = true :=
    padForDecimals_digits 18 _ (natToDecChars_digits wei)
  have hstrlen : 19 ≤ str.length := padForDecimals_length 18 _
  have hwdig : ∀ ch ∈ whole, ch.isDigit = true := by
    intro ch hch
    rw [hwhole] at hch
    exact hstrdig ch (List.take_subset _ _ hch)
  have hfracRawdig : ∀ ch ∈ fracRaw, ch.isDigit = true := by
    intro ch hch
    rw [hfracRaw] at hch
    exact hstrdig ch (List.drop_subset _ _ hch)
  have hfracRawlen : fracRaw.length = 18 := by
    rw [hfracRaw, List.length_drop]
    omega
  obtain ⟨hval, hge1, hle, hmem⟩ := trimFracZeros_spec fracRaw
  have hfracdig : ∀ ch ∈ frac, ch.isDigit = true := by
    intro ch hch
    rcases hmem ch (hfrac ▸ hch) with h | h
    · exact hfracRawdig ch h
    · subst h; decide
  have hfraclen : frac.length ≤ 18 := by
    rw [hfrac]
    rw [hfracRawlen] at hle
    omega
  have hnodot : ('.' : Char) ∉ whole := by
    intro hd
    exact absurd (hwdig '.' hd) (by decide)
  have hsplit : splitAtDot ((formatEther wei).data) = (whole, frac) := by
    rw [hchars]
    exact splitAtDot_append whole frac hnodot
  have hwall : whole.all Char.isDigit = true := List.all_eq_true.mpr hwdig
  have hfall : frac.all Char.isDigit = true := List.all_eq_true.mpr hfracdig
  have hstrval : decValue str = wei := by
    rw [hstr, decValue_padForDecimals, decValue_natToDecChars]
  have hsplitstr : whole ++ fracRaw = str := by
    rw [hwhole, hfracRaw]
    exact List.take_append_drop _ _
  have hvalsum : decValue whole * 10 ^ 18 + decValue fracRaw = wei := by
    have h1 := decValue_append whole fracRaw
    rw [hsplitstr, hstrval, hfracRawlen] at h1
    exact h1.symm
  have hfracval : decValue frac * 10 ^ (18 - frac.length) = decValue fracRaw := by
    rw [hfracRawlen] at hval
    exact hval
  simp only [weiOfEtherString, hsplit]
  rw [if_pos ⟨hwall, hfall, hfraclen⟩, hfracval, hvalsum]

/-- Every character of a rendered balance string is a decimal digit or the
decimal point; in particular the string carries no sign. -/
theorem formatEther_chars (wei : Nat) :
    ∀ ch ∈ (formatEther wei).data, ch.isDigit = true ∨ ch = '.' := by
  intro ch hch
  set str := padForDecimals 18 (natToDecChars wei) with hstr
  have hchars : (formatEther wei).data =
      str.take (str.length - 18) ++ '.' :: trimFracZeros (str.drop (str.length - 18)) := rfl
  have hstrdig : ∀ c ∈ str, c.isDigit = true :=
    padForDecimals_digits 18 _ (natToDecChars_digits wei)
  rw [hchars, List.mem_append, List.mem_cons] at hch
  rcases hch with h | h | h
  · exact Or.inl (hstrdig ch (List.take_subset _ _ h))
  · exact Or.inr h
  · obtain ⟨_, _, _, hmem⟩ := trimFracZeros_spec (str.drop (str.length - 18))
    rcases hmem ch h with h1 | h1
    · exact Or.inl (hstrdig ch (List.drop_subset _ _ h1))
    · subst h1
      exact Or.inl (by decide)

/-! ## Helper lemmas: per-certificate metadata aggregation -/

/-- The aggregation processes exactly one output element per certificate. -/
theorem fetchAllCertMetadata_length
    (fetchJson : String → Except String MetadataDoc)
    (tof : String → Int → Except String Int) (turi : Int → Except String String)
    (ownerAddress : String) (start : Nat) (certs : List CertificateData) :
    (fetchAllCertMetadata fetchJson tof turi ownerAddress start certs).length
      = certs.length := by
  induction certs generalizing start with
  | nil => rfl
  | cons cert rest ih =>
      simp only [fetchAllCertMetadata, List.length_cons, ih]

/-- The `i`-th output of the aggregation is the per-certificate body applied
to the `i`-th certificate at index `start + i`. -/
theorem fetchAllCertMetadata_get
    (fetchJson : String → Except String MetadataDoc)
    (tof : String → Int → Except String Int) (turi : Int → Except String String)
    (ownerAddress : String) (start : Nat) (certs : List CertificateData)
    (i : Nat) (hi : i < certs.length)
    (h : i < (fetchAllCertMetadata fetchJson tof turi ownerAddress start certs).length) :
    (fetchAllCertMetadata fetchJson tof turi ownerAddress start certs).get ⟨i, h⟩
      = fetchCertMetadata fetchJson tof turi ownerAddress (certs.get ⟨i, hi⟩) (start + i) := by
  induction certs generalizing start i with
  | nil => exact absurd hi (Nat.not_lt_zero i)
  | cons cert rest ih =>
      cases i with
      | zero => simp [fetchAllCertMetadata]
      | succ j =>
          have hj : j < rest.length := Nat.lt_of_succ_lt_succ hi
          have h2 : j < (fetchAllCertMetadata fetchJson tof turi ownerAddress (start + 1) rest).length := by
            rw [fetchAllCertMetadata_length]
            exact hj
          simp only [fetchAllCertMetadata, List.get_cons_succ]
          rw [ih (start + 1) j hj h2]
          congr 1
          omega

/-! ## Claim theorems -/

/-- C1: a call to `mintCertificate` on an `RPCClient` constructed with neither
a private key nor an external signer rejects with the descriptive "no signer
available" error before any contract object is built or any network call is
attempted (the event trace is empty), for every combination of the other
arguments. -/
theorem c1_no_signer_rejected_before_any_call
    (rpcUrl : String) (env : MintEnv)
    (contractAddress to_ tokenURI name certificateId courseTitle issuer : String)
    (dateIssued completionDate cpeHours : JsNumeric) :
    (RPCClient.construct rpcUrl none none).mintCertificate env contractAddress to_ tokenURI
        name certificateId courseTitle issuer dateIssued completionDate cpeHours =
      (.error "No signer available. Provide either a privateKey or externalSigner.", []) :=
  rfl

/-- C2: when the bound contract lacks the `mintCertificate` method, a mint
call (with a resolved signer) rejects with the descriptive "function not
found" error naming the method, and no transaction is submitted to the
network: the only recorded step is local contract-object construction. -/
theorem c2_missing_function_rejected_without_submission
    (c : RPCClient) (env : MintEnv) (signer : SignerId)
    (contractAddress to_ tokenURI name certificateId courseTitle issuer : String)
    (dateIssued completionDate cpeHours : JsNumeric)
    (hsigner : c.getSigner = .ok signer)
    (habi : (env.contractAt contractAddress mintCertificateAbi signer).mintCertificate = none) :
    c.mintCertificate env contractAddress to_ tokenURI name certificateId courseTitle issuer
        dateIssued completionDate cpeHours =
      (.error "mintCertificate function not found on contract. Check the contract address and ABI match the deployed contract.",
       [.contractCreated contractAddress mintCertificateAbi signer]) ∧
    ∀ ev ∈ (c.mintCertificate env contractAddress to_ tokenURI name certificateId courseTitle
        issuer dateIssued completionDate cpeHours).2, ev.isSubmission = false := by
  have hmain : c.mintCertificate env contractAddress to_ tokenURI name certificateId
      courseTitle issuer dateIssued completionDate cpeHours =
      (.error "mintCertificate function not found on contract. Check the contract address and ABI match the deployed contract.",
       [.contractCreated contractAddress mintCertificateAbi signer]) := by
    unfold RPCClient.mintCertificate
    rw [hsigner]
    simp only [habi]
  refine ⟨hmain, ?_⟩
  intro ev hev
  rw [hmain] at hev
  simp only [List.mem_singleton] at hev
  subst hev
  rfl

/-- C2 witness: a client holding only a private key, against a contract
object lacking `mintCertificate`. -/
theorem c2_witness :
    keyClient.getSigner = .ok keySigner ∧
    (noMintEnv.contractAt "0xC" mintCertificateAbi keySigner).mintCertificate = none ∧
    keyClient.mintCertificate noMintEnv "0xC" "0xRecipient" "ipfs://uri" "Alice" "CERT-1"
        "Course" "Issuer" (.number 1) (.number 2) (.number 3) =
      (.error "mintCertificate function not found on contract. Check the contract address and ABI match the deployed contract.",
       [.contractCreated "0xC" mintCertificateAbi keySigner]) := by
  refine ⟨rfl, rfl, ?_⟩
  exact (c2_missing_function_rejected_without_submission keyClient noMintEnv keySigner
    "0xC" "0xRecipient" "ipfs://uri" "Alice" "CERT-1" "Course" "Issuer"
    (.number 1) (.number 2) (.number 3) rfl rfl).1

/-- C3: signing identity is decided at construction time with priority
external signer > local private key > none: when an external signer is
supplied the local wallet is never created and `getSigner` yields the
external signer; with only a (truthy) private key `getSigner` yields the
local wallet; with neither it errors; at most one identity ever exists; and
when both are supplied, minting behaves exactly as with the external signer
alone. -/
theorem c3_signer_priority
    (rpcUrl pk : String) (s : ExtSigner) (opk : Option String) (osig : Option ExtSigner)
    (env : MintEnv)
    (contractAddress to_ tokenURI name certificateId courseTitle issuer : String)
    (dateIssued completionDate cpeHours : JsNumeric)
    (hpk : pk ≠ "") :
    (RPCClient.construct rpcUrl opk (some s)).wallet = none ∧
    (RPCClient.construct rpcUrl opk (some s)).externalSigner = some s ∧
    (RPCClient.construct rpcUrl opk (some s)).getSigner = .ok (.externalSigner s) ∧
    (RPCClient.construct rpcUrl (some pk) none).getSigner =
      .ok (.localWallet { privateKey := pk, rpcUrl := rpcUrl }) ∧
    (RPCClient.construct rpcUrl none none).getSigner =
      .error "No signer available. Provide either a privateKey or externalSigner." ∧
    ¬((RPCClient.construct rpcUrl opk osig).wallet.isSome = true ∧
      (RPCClient.construct rpcUrl opk osig).externalSigner.isSome = true) ∧
    (RPCClient.construct rpcUrl (some pk) (some s)).mintCertificate env contractAddress to_
        tokenURI name certificateId courseTitle issuer dateIssued completionDate cpeHours =
      (RPCClient.construct rpcUrl none (some s)).mintCertificate env contractAddress to_
        tokenURI name certificateId courseTitle issuer dateIssued completionDate cpeHours := by
  refine ⟨?_, ?_, ?_, ?_, ?_, ?_, ?_⟩
  · cases opk <;> rfl
  · rfl
  · cases opk <;> rfl
  · simp [RPCClient.construct, RPCClient.getSigner, hpk]
  · rfl
  · cases osig with
    | some sig => simp [RPCClient.construct]
    | none =>
        cases opk with
        | some k => simp [RPCClient.construct]
        | none => simp [RPCClient.construct]
  · rfl

/-- C3 witness: concrete client with both a private key and an external
signer. -/
theorem c3_witness :
    ("0xkey" : String) ≠ "" ∧
    (RPCClient.construct "http://localhost:8545" (some "0xkey") (some ⟨"0xPrivy"⟩)).wallet
      = none ∧
    (RPCClient.construct "http://localhost:8545" (some "0xkey") (some ⟨"0xPrivy"⟩)).getSigner
      = .ok (.externalSigner ⟨"0xPrivy"⟩) ∧
    (RPCClient.construct "http://localhost:8545" (some "0xkey") none).getSigner
      = .ok (.localWallet { privateKey := "0xkey", rpcUrl := "http://localhost:8545" }) ∧
    (RPCClient.construct "http://localhost:8545" (some "0xkey") (some ⟨"0xPrivy"⟩)).mintCertificate
        noMintEnv "0xC" "0xR" "u" "n" "cid" "ct" "i" (.number 1) (.bigint 2) (.number 3) =
      (RPCClient.construct "http://localhost:8545" none (some ⟨"0xPrivy"⟩)).mintCertificate
        noMintEnv "0xC" "0xR" "u" "n" "cid" "ct" "i" (.number 1) (.bigint 2) (.number 3) := by
  have h := c3_signer_priority "http://localhost:8545" "0xkey" ⟨"0xPrivy"⟩ (some "0xkey") none
      noMintEnv "0xC" "0xR" "u" "n" "cid" "ct" "i" (.number 1) (.bigint 2) (.number 3)
      (by decide)
  exact ⟨by decide, h.1, h.2.2.1, h.2.2.2.1, h.2.2.2.2.2.2⟩

/-- C4: in `getAllCertificatesWithMetadata`, failures of any of the three
per-certificate steps (index resolution, URI resolution, document fetch or
parse) are caught independently per certificate and never raised to the
caller: the result is always `ok`, has the same length and index order as the
on-chain sequence, every element keeps its on-chain record, the element at a
failing index merely lacks the `tokenURI` and/or `metadata` fields (both
absent when index or URI resolution fails, URI present and metadata absent
when only the document fetch fails), and elements at other indices are
computed from their own index alone. -/
theorem c4_metadata_partial_failure_tolerated
    (c : RPCClient) (env : CertEnv) (contractAddress ownerAddress : String)
    (certs : List CertificateData) (baseEvents : List CertEvent)
    (tof : String → Int → Except String Int) (turi : Int → Except String String)
    (h1 : (env.contractAt contractAddress tokenFunctionsAbi).tokenOfOwnerByIndex = some tof)
    (h2 : (env.contractAt contractAddress tokenFunctionsAbi).tokenURI = some turi)
    (h3 : c.getAllCertificatesByOwner env contractAddress ownerAddress = (.ok certs, baseEvents)) :
    (c.getAllCertificatesWithMetadata env contractAddress ownerAddress true).1 =
      .ok ((fetchAllCertMetadata env.fetchJson tof turi ownerAddress 0 certs).map Prod.fst) ∧
    ((fetchAllCertMetadata env.fetchJson tof turi ownerAddress 0 certs).map Prod.fst).length
      = certs.length ∧
    (∀ (i : Nat) (hi : i < certs.length)
        (h : i < ((fetchAllCertMetadata env.fetchJson tof turi ownerAddress 0 certs).map
          Prod.fst).length),
      ((fetchAllCertMetadata env.fetchJson tof turi ownerAddress 0 certs).map Prod.fst).get ⟨i, h⟩
        = (fetchCertMetadata env.fetchJson tof turi ownerAddress (certs.get ⟨i, hi⟩) i).1) ∧
    (∀ (i : Nat) (hi : i < certs.length),
      ((fetchCertMetadata env.fetchJson tof turi ownerAddress (certs.get ⟨i, hi⟩) i).1).toCertificateData
        = certs.get ⟨i, hi⟩) ∧
    (∀ (i : Nat) (hi : i < certs.length) (e : String),
      tof ownerAddress (Int.ofNat i) = .error e →
      (fetchCertMetadata env.fetchJson tof turi ownerAddress (certs.get ⟨i, hi⟩) i).1 =
        { toCertificateData := certs.get ⟨i, hi⟩ }) ∧
    (∀ (i : Nat) (hi : i < certs.length) (tid : Int) (e : String),
      tof ownerAddress (Int.ofNat i) = .ok tid → turi tid = .error e →
      (fetchCertMetadata env.fetchJson tof turi ownerAddress (certs.get ⟨i, hi⟩) i).1 =
        { toCertificateData := certs.get ⟨i, hi⟩ }) ∧
    (∀ (i : Nat) (hi : i < certs.length) (tid : Int) (uri e : String),
      tof ownerAddress (Int.ofNat i) = .ok tid → turi tid = .ok uri →
      env.fetchJson uri = .error e →
      (fetchCertMetadata env.fetchJson tof turi ownerAddress (certs.get ⟨i, hi⟩) i).1 =
        { toCertificateData := certs.get ⟨i, hi⟩, tokenURI := some uri }) ∧
    (∀ (i : Nat) (hi : i < certs.length) (tid : Int) (uri : String) (md : MetadataDoc),
      tof ownerAddress (Int.ofNat i) = .ok tid → turi tid = .ok uri →
      env.fetchJson uri = .ok md →
      (fetchCertMetadata env.fetchJson tof turi ownerAddress (certs.get ⟨i, hi⟩) i).1 =
        { toCertificateData := certs.get ⟨i, hi⟩, tokenURI := some uri, metadata := some md }) := by
  refine ⟨?_, ?_, ?_, ?_, ?_, ?_, ?_, ?_⟩
  · unfold RPCClient.getAllCertificatesWithMetadata
    rw [h3]
    simp only [h1, h2]
    rfl
  · rw [List.length_map, fetchAllCertMetadata_length]
  · intro i hi h
    have hlen : i < (fetchAllCertMetadata env.fetchJson tof turi ownerAddress 0 certs).length := by
      rw [fetchAllCertMetadata_length]
      exact hi
    rw [List.get_map]
    rw [fetchAllCertMetadata_get env.fetchJson tof turi ownerAddress 0 certs i hi hlen]
    simp
  · intro i hi
    rcases htof : tof ownerAddress (Int.ofNat i) with e | tid
    · simp only [fetchCertMetadata, htof]
    · rcases huri : turi tid with e | uri
      · simp only [fetchCertMetadata, htof, huri]
      · rcases hjson : env.fetchJson uri with e | md
        · simp only [fetchCertMetadata, htof, huri, hjson]
        · simp only [fetchCertMetadata, htof, huri, hjson]
  · intro i hi e he
    simp only [fetchCertMetadata, he]
  · intro i hi tid e htid he
    simp only [fetchCertMetadata, htid, he]
  · intro i hi tid uri e htid huri he
    simp only [fetchCertMetadata, htid, huri, he]
  · intro i hi tid uri md htid huri hmd
    simp only [fetchCertMetadata, htid, huri, hmd]

/-- C4 witness: index 0 fails at token-index resolution while index 1
succeeds; the result still has length 2, index 0 lacks both URI and metadata,
index 1 has both, and order is preserved. -/
theorem c4_witness :
    (testClient.getAllCertificatesWithMetadata certMetaEnv "0xC" "0xOwner" true).1 =
      .ok [⟨rawToCertificate rawCert0, none, none⟩,
           ⟨rawToCertificate rawCert1, some "https://meta.example/1.json",
            some ⟨"metadata-doc-1"⟩⟩] := by
  have h := c4_metadata_partial_failure_tolerated testClient certMetaEnv "0xC" "0xOwner"
      (List.map rawToCertificate [rawCert0, rawCert1])
      [.contractCreated "0xC" getAllNFTsByOwnerAbi, .callGetAllNFTsByOwner "0xC" "0xOwner"]
      testTof testTuri rfl rfl rfl
  rw [h.1]
  rfl

/-- C5 (amended): `getAllCertificatesByOwner` issues one read call returning
the ordered raw tuples, deserializes each tuple positionally into a
`CertificateData` record of FOUR string fields (name, certificateId,
courseTitle, issuer) and three big-integer fields, preserves the on-chain
order, and yields an empty sequence (not an error) for an owner with zero
owned tokens. -/
theorem c5_positional_deserialization
    (c : RPCClient) (env : CertEnv) (contractAddress ownerAddress : String)
    (call : String → Except String (List RawCertTuple))
    (raws : List RawCertTuple)
    (habi : (env.contractAt contractAddress getAllNFTsByOwnerAbi).getAllNFTsByOwner = some call)
    (hcall : call ownerAddress = .ok raws) :
    c.getAllCertificatesByOwner env contractAddress ownerAddress =
      (.ok (raws.map rawToCertificate),
       [.contractCreated contractAddress getAllNFTsByOwnerAbi,
        .callGetAllNFTsByOwner contractAddress ownerAddress]) ∧
    (raws.map rawToCertificate).length = raws.length ∧
    (∀ (i : Nat) (hi : i < raws.length) (h : i < (raws.map rawToCertificate).length),
      (raws.map rawToCertificate).get ⟨i, h⟩ = rawToCertificate (raws.get ⟨i, hi⟩)) ∧
    (raws = [] → (c.getAllCertificatesByOwner env contractAddress ownerAddress).1 = .ok []) ∧
    (∀ (nm cid ct isr : String) (d cd ch : Int),
      rawToCertificate (nm, cid, ct, isr, d, cd, ch) =
        { name := nm
          certificateId := cid
          courseTitle := ct
          issuer := isr
          dateIssued := d
          completionDate := cd
          cpeHours := ch }) := by
  have hmain : c.getAllCertificatesByOwner env contractAddress ownerAddress =
      (.ok (raws.map rawToCertificate),
       [.contractCreated contractAddress getAllNFTsByOwnerAbi,
        .callGetAllNFTsByOwner contractAddress ownerAddress]) := by
    unfold RPCClient.getAllCertificatesByOwner
    simp only [habi, hcall]
  refine ⟨hmain, by simp, ?_, ?_, ?_⟩
  · intro i hi h
    simp [List.get_eq_getElem, List.getElem_map]
  · intro hnil
    subst hnil
    rw [hmain]
    rfl
  · intro nm cid ct isr d cd ch
    rfl

/-- C5 counterexample: the claim says the tuple is deserialized into a record
of "three string fields, three big-integer fields", but the positional
deserialization fills FOUR string-valued fields from four distinct tuple
positions — in particular changing only the fourth string position (issuer)
changes the result, which no three-string-field record could reflect. -/
theorem c5_counterexample :
    (rawToCertificate ("a", "b", "c", "d", 1, 2, 3)).name = "a" ∧
    (rawToCertificate ("a", "b", "c", "d", 1, 2, 3)).certificateId = "b" ∧
    (rawToCertificate ("a", "b", "c", "d", 1, 2, 3)).courseTitle = "c" ∧
    (rawToCertificate ("a", "b", "c", "d", 1, 2, 3)).issuer = "d" ∧
    rawToCertificate ("a", "b", "c", "d", 1, 2, 3) ≠
      rawToCertificate ("x", "b", "c", "d", 1, 2, 3) ∧
    rawToCertificate ("a", "b", "c", "d", 1, 2, 3) ≠
      rawToCertificate ("a", "x", "c", "d", 1, 2, 3) ∧
    rawToCertificate ("a", "b", "c", "d", 1, 2, 3) ≠
      rawToCertificate ("a", "b", "x", "d", 1, 2, 3) ∧
    rawToCertificate ("a", "b", "c", "d", 1, 2, 3) ≠
      rawToCertificate ("a", "b", "c", "x", 1, 2, 3) := by
  decide

/-- C5 witness: an owner with zero owned tokens yields the empty sequence
from a single read call, not an error. -/
theorem c5_witness :
    testClient.getAllCertificatesByOwner certEmptyEnv "0xC" "0xOwner" =
      (.ok [], [.contractCreated "0xC" getAllNFTsByOwnerAbi,
                .callGetAllNFTsByOwner "0xC" "0xOwner"]) := by
  have h := c5_positional_deserialization testClient certEmptyEnv "0xC" "0xOwner"
      (fun _ => .ok []) [] rfl rfl
  exact h.1

/-- C6: two mint invocations that agree on all arguments except that the
numeric parameters are passed as native integers in one and as the
numerically equal big integers in the other behave identically — in
particular the arguments of the recorded contract call are identical — and
the normalization is the identity on both variants (lossless widening, never
narrowing). -/
theorem c6_numeric_normalization_lossless
    (c : RPCClient) (env : MintEnv)
    (contractAddress to_ tokenURI name certificateId courseTitle issuer : String)
    (dateIssued completionDate cpeHours : Int) :
    c.mintCertificate env contractAddress to_ tokenURI name certificateId courseTitle issuer
        (.number dateIssued) (.number completionDate) (.number cpeHours) =
      c.mintCertificate env contractAddress to_ tokenURI name certificateId courseTitle issuer
        (.bigint dateIssued) (.bigint completionDate) (.bigint cpeHours) ∧
    JsNumeric.toBigInt (.number dateIssued) = dateIssued ∧
    JsNumeric.toBigInt (.bigint dateIssued) = dateIssued :=
  ⟨rfl, rfl, rfl⟩

/-- C7: when the submitted transaction is mined and `wait()` yields a
receipt, `mintCertificate` returns that receipt verbatim as a normal result
— whatever its `status`, including failure status 0 — without inspecting or
reinterpreting the status field. -/
theorem c7_mined_failure_receipt_returned
    (c : RPCClient) (env : MintEnv) (signer : SignerId)
    (call : MintCallArgs → Except String TxResponse)
    (contractAddress to_ tokenURI name certificateId courseTitle issuer : String)
    (dateIssued completionDate cpeHours : JsNumeric)
    (tx : TxResponse) (receipt : TransactionReceipt)
    (hsigner : c.getSigner = .ok signer)
    (habi : (env.contractAt contractAddress mintCertificateAbi signer).mintCertificate = some call)
    (hcall : call (⟨to_, tokenURI, name, certificateId, courseTitle, issuer,
        dateIssued.toBigInt, completionDate.toBigInt, cpeHours.toBigInt⟩ : MintCallArgs) = .ok tx)
    (hwait : tx.wait = .ok (some receipt)) :
    c.mintCertificate env contractAddress to_ tokenURI name certificateId courseTitle issuer
        dateIssued completionDate cpeHours =
      (.ok (some receipt),
       [.contractCreated contractAddress mintCertificateAbi signer,
        .contractCall contractAddress signer
          (⟨to_, tokenURI, name, certificateId, courseTitle, issuer,
            dateIssued.toBigInt, completionDate.toBigInt, cpeHours.toBigInt⟩ : MintCallArgs),
        .waitedForReceipt]) := by
  unfold RPCClient.mintCertificate
  rw [hsigner]
  simp only [habi, hcall, hwait]

/-- C7 witness: a transaction mined with `status` 0 is returned as a receipt
object, not thrown. -/
theorem c7_witness :
    (keyClient.mintCertificate mintOkEnv "0xC" "0xR" "ipfs://u" "Alice" "CERT-1" "Course"
        "Issuer" (.number 1000) (.number 2000) (.bigint 10)).1 = .ok (some failedReceipt) ∧
    failedReceipt.status = some 0 := by
  have h := c7_mined_failure_receipt_returned keyClient mintOkEnv keySigner
      (fun _ => .ok { wait := .ok (some failedReceipt) }) "0xC" "0xR" "ipfs://u" "Alice"
      "CERT-1" "Course" "Issuer" (.number 1000) (.number 2000) (.bigint 10)
      { wait := .ok (some failedReceipt) } failedReceipt rfl rfl rfl rfl
  exact ⟨by rw [h], rfl⟩

/-- C8: when the provider reports a block, transaction or receipt as
non-existent (the ethers `null` result), the RPC client methods and the
corresponding query resolvers all resolve to `null` and never throw. -/
theorem c8_nonexistent_entities_resolve_to_null
    (c : RPCClient) (env : ChainEnv) (bid : BlockId) (bstr txHash rcptHash : String)
    (hb : (env.providerAt c.rpcUrl).getBlock bid = .ok none)
    (hbs : (env.providerAt c.rpcUrl).getBlock (.str bstr) = .ok none)
    (ht : (env.providerAt c.rpcUrl).getTransaction txHash = .ok none)
    (hr : (env.providerAt c.rpcUrl).getTransactionReceipt rcptHash = .ok none) :
    c.getBlock env bid = .ok none ∧
    c.getTransaction env txHash = .ok none ∧
    c.getTransactionReceipt env rcptHash = .ok none ∧
    Resolvers.block { rpcClient := c } env bstr = .ok none ∧
    Resolvers.transaction { rpcClient := c } env txHash = .ok none ∧
    Resolvers.transactionReceipt { rpcClient := c } env rcptHash = .ok none := by
  refine ⟨hb, ht, hr, ?_, ?_, ?_⟩
  · unfold Resolvers.block
    simp only [RPCClient.getBlock, RPCClient.provider, hbs]
  · unfold Resolvers.transaction
    simp only [RPCClient.getTransaction, RPCClient.provider, ht]
  · unfold Resolvers.transactionReceipt
    simp only [RPCClient.getTransactionReceipt, RPCClient.provider, hr]

/-- C8 witness: a provider on which nothing exists yields `null` for every
query, at both layers. -/
theorem c8_witness :
    testClient.getBlock testChainEnv (.num 999999999) = .ok none ∧
    testClient.getTransaction testChainEnv "0xdeadbeef" = .ok none ∧
    testClient.getTransactionReceipt testChainEnv "0xdeadbeef" = .ok none ∧
    Resolvers.block { rpcClient := testClient } testChainEnv "0xnoblock" = .ok none ∧
    Resolvers.transaction { rpcClient := testClient } testChainEnv "0xdeadbeef" = .ok none ∧
    Resolvers.transactionReceipt { rpcClient := testClient } testChainEnv "0xdeadbeef"
      = .ok none :=
  c8_nonexistent_entities_resolve_to_null testClient testChainEnv (.num 999999999)
    "0xnoblock" "0xdeadbeef" "0xdeadbeef" rfl rfl rfl rfl

/-- C9: for every address, the balance query returns the exact base-unit
(ether) decimal rendering of the wei balance: a string of digits and one
decimal point (hence non-negative, no sign), produced without floating
point, and parseable back to the original smallest-unit integer without
precision loss; the resolver returns the same string. -/
theorem c9_balance_exact_decimal_roundtrip
    (c : RPCClient) (env : ChainEnv) (address : String) (wei : Nat)
    (hbal : (env.providerAt c.rpcUrl).getBalance address = .ok wei) :
    c.getBalance env address = .ok (formatEther wei) ∧
    Resolvers.balance { rpcClient := c } env address = .ok (formatEther wei) ∧
    weiOfEtherString (formatEther wei) = some wei ∧
    ∀ ch ∈ (formatEther wei).data, ch.isDigit = true ∨ ch = '.' := by
  have h1 : c.getBalance env address = .ok (formatEther wei) := by
    unfold RPCClient.getBalance RPCClient.provider
    rw [hbal]
  exact ⟨h1, h1, weiOfEtherString_formatEther wei, formatEther_chars wei⟩

/-- C9 witness: an account holding 1.5 ether (1500000000000000000 wei). -/
theorem c9_witness :
    testClient.getBalance testChainEnv "0xAccount"
      = .ok (formatEther 1500000000000000000) ∧
    weiOfEtherString (formatEther 1500000000000000000) = some 1500000000000000000 := by
  have h := c9_balance_exact_decimal_roundtrip testClient testChainEnv "0xAccount"
      1500000000000000000 rfl
  exact ⟨h.1, h.2.2.1⟩

/-- C10: `getAllCertificatesWithMetadata` with `fetchMetadata` false returns
exactly the `getAllCertificatesByOwner` result (each element with `tokenURI`
and `metadata` absent), performs no further calls and no ABI presence checks
(the event trace equals the base trace), and therefore succeeds even against
contracts lacking the token-enumeration methods. -/
theorem c10_skip_metadata_is_base_query
    (c : RPCClient) (env : CertEnv) (contractAddress ownerAddress : String) :
    c.getAllCertificatesWithMetadata env contractAddress ownerAddress false =
      (Except.map (List.map fun cert => ({ toCertificateData := cert } : CertificateWithMetadata))
         (c.getAllCertificatesByOwner env contractAddress ownerAddress).1,
       (c.getAllCertificatesByOwner env contractAddress ownerAddress).2) ∧
    (∀ certs, (c.getAllCertificatesByOwner env contractAddress ownerAddress).1 = .ok certs →
      (c.getAllCertificatesWithMetadata env contractAddress ownerAddress false).1 =
        .ok (certs.map fun cert => { toCertificateData := cert }) ∧
      ∀ x ∈ certs.map fun cert => ({ toCertificateData := cert } : CertificateWithMetadata),
        x.tokenURI = none ∧ x.metadata = none) := by
  have hmain : c.getAllCertificatesWithMetadata env contractAddress ownerAddress false =
      (Except.map (List.map fun cert => ({ toCertificateData := cert } : CertificateWithMetadata))
         (c.getAllCertificatesByOwner env contractAddress ownerAddress).1,
       (c.getAllCertificatesByOwner env contractAddress ownerAddress).2) := by
    unfold RPCClient.getAllCertificatesWithMetadata
    cases hbase : c.getAllCertificatesByOwner env contractAddress ownerAddress with
    | mk r evs =>
        cases r with
        | error e => simp [Except.map]
        | ok certs => simp [Except.map]
  refine ⟨hmain, ?_⟩
  intro certs hok
  constructor
  · have h1 := congrArg Prod.fst hmain
    simp only at h1
    rw [h1, hok]
    rfl
  · intro x hx
    simp only [List.mem_map] at hx
    obtain ⟨cert, _, rfl⟩ := hx
    exact ⟨rfl, rfl⟩

/-- C10 witness: against a contract lacking `tokenOfOwnerByIndex` and
`tokenURI`, the skip-metadata call still succeeds with the bare records and
performs only the base read call. -/
theorem c10_witness :
    (testClient.getAllCertificatesWithMetadata certNoMetaEnv "0xC" "0xOwner" false).1 =
      .ok [⟨rawToCertificate rawCert0, none, none⟩] ∧
    (testClient.getAllCertificatesWithMetadata certNoMetaEnv "0xC" "0xOwner" false).2 =
      (testClient.getAllCertificatesByOwner certNoMetaEnv "0xC" "0xOwner").2 := by
  have h := c10_skip_metadata_is_base_query testClient certNoMetaEnv "0xC" "0xOwner"
  refine ⟨?_, ?_⟩
  · exact (h.2 (List.map rawToCertificate [rawCert0]) rfl).1
  · rw [h.1]
